import Mathlib

/-!
Verification development for the NMR2Struct training / checkpointing /
prediction-serialization core.

The embedding covers, from the repository's source:

* `src/nmr/training/loss_fxns.py` — `subs_weighted_BCE`;
* `src/nmr/training/trainer.py` — `train_loop`, `validation_loop`,
  `test_loop`, `save_model`, `delete_checkpoint` and `fit` (the top-K
  checkpoint bookkeeping at trainer.py:202-216 is `considerCheckpoint`);
* `src/nmr/scripts/top_level_utils.py` — `find_max_length`,
  `pad_single_prediction`, `save_str_set`, `save_array_set`,
  `save_inference_predictions`.

Modelling conventions.  Python floats are modelled as exact rationals `ℚ`
(torch tensors over a general `Field` for the loss module, with `ℝ` and a
concrete binary-cross-entropy element for the real instantiation);
`np.inf` sentinels become `⊤ : WithTop ℚ`.  Side effects (file writes,
file deletions, test passes, TensorBoard flush/close) are recorded as an
explicit event trace.  Fallible Python code (division by zero, modulo by
zero, indexing `None`, unbound locals, failed `assert`s, `np.argmax` of an
empty array, `h5py` calls on a non-h5 handle) is modelled with
`Except String`, the error string naming the Python exception.
-/

/-! ## Epoch driver: `train_loop`, `validation_loop`, `test_loop`
(trainer.py lines 9-103).

The model, dataloader, loss function, optimizer, scheduler and TensorBoard
writer are abstracted into the list of per-batch loss values (the sequence
of `loss.item()` results in the dataloader's iteration order); each loop
accumulates `tot_loss` over the batches and finally divides by
`len(dataloader)`, which in Python raises `ZeroDivisionError` when the
dataloader yields zero batches (the division occurs in the
`writer.add_scalar("Avg. …", tot_loss / len(dataloader), epoch)` call
and again in the `return`). -/

/-- trainer.py `train_loop` (lines 9-45): mean of per-batch training losses;
`ZeroDivisionError` on an empty dataloader. -/
def train_loop (batch_losses : List ℚ) : Except String ℚ :=
  let tot_loss : ℚ := batch_losses.foldl (· + ·) 0
  if batch_losses.length = 0 then
    Except.error "ZeroDivisionError: division by zero"
  else Except.ok (tot_loss / batch_losses.length)

/-- trainer.py `validation_loop` (lines 47-74): mean of per-batch validation
losses (computed under `torch.no_grad`, which does not change the arithmetic);
`ZeroDivisionError` on an empty dataloader. -/
def validation_loop (batch_losses : List ℚ) : Except String ℚ :=
  let tot_loss : ℚ := batch_losses.foldl (· + ·) 0
  if batch_losses.length = 0 then
    Except.error "ZeroDivisionError: division by zero"
  else Except.ok (tot_loss / batch_losses.length)

/-- trainer.py `test_loop` (lines 76-103): mean of per-batch test losses;
`ZeroDivisionError` on an empty dataloader. -/
def test_loop (batch_losses : List ℚ) : Except String ℚ :=
  let tot_loss : ℚ := batch_losses.foldl (· + ·) 0
  if batch_losses.length = 0 then
    Except.error "ZeroDivisionError: division by zero"
  else Except.ok (tot_loss / batch_losses.length)

/-! ## `save_model` (trainer.py lines 105-127) -/

/-- The eight fractional digits of Python's fixed-point rendering: the
decimal digits of `m % 10^8`, zero-padded on the left to width 8 (`m` is the
scaled magnitude, see `formatFixed8`). -/
def fracDigits8 (m : ℕ) : String :=
  String.mk ((List.range 8).map fun k => Nat.digitChar (m / 10 ^ (7 - k) % 10))

/-- Python's `f"{x:.8f}"` on an exact rational: sign, integer part, a point,
then exactly eight fractional digits of the magnitude rounded to a multiple
of `10 ^ (-8)`.  The scaled magnitude `|q| * 10 ^ 8 = (|num| * 10 ^ 8) / den`
rounded half-up is `(2 * |num| * 10 ^ 8 + den) / (2 * den)` in integer
division.  (CPython formats the underlying binary float with
round-half-even; on exact rationals the conventions agree away from exact
midpoints, which no theorem below depends on.) -/
def formatFixed8 (q : ℚ) : String :=
  let sign := if q < 0 then "-" else ""
  let n : ℕ := (2 * (q.num.natAbs * 10 ^ 8) + q.den) / (2 * q.den)
  sign ++ toString (n / 10 ^ 8) ++ "." ++ fracDigits8 (n % 10 ^ 8)

/-- The checkpoint filename built by trainer.py `save_model` (lines 120-123):
`f"{savedir}/model_epoch={epoch}_loss={loss_metric:.8f}.pt"`, with `_{tag}`
inserted before `.pt` when `tag` is non-empty. -/
def saveModelName (epoch : ℕ) (loss_metric : ℚ) (savedir : String) (tag : String) : String :=
  if tag = "" then
    savedir ++ "/model_epoch=" ++ toString epoch ++ "_loss=" ++ formatFixed8 loss_metric ++ ".pt"
  else
    savedir ++ "/model_epoch=" ++ toString epoch ++ "_loss=" ++ formatFixed8 loss_metric
      ++ "_" ++ tag ++ ".pt"

/-- trainer.py `save_model` (lines 105-127).  The `torch.save` call persists a
dict with exactly the two keys `model_state_dict` and `optimizer_state_dict`;
the persisted bundle is returned as an association list alongside the
filename (the function's Python return value).  The state dicts themselves
are opaque blobs of type `γ`. -/
def save_model {γ : Type} (model_state optim_state : γ) (epoch : ℕ)
    (loss_metric : ℚ) (savedir : String) (tag : String) :
    String × List (String × γ) :=
  (saveModelName epoch loss_metric savedir tag,
   [("model_state_dict", model_state), ("optimizer_state_dict", optim_state)])

/-- Drop characters up to and including the first occurrence of the
substring `loss=` (used to inspect the loss field of a checkpoint
filename). -/
def dropThroughLossEq : List Char → List Char
  | 'l' :: 'o' :: 's' :: 's' :: '=' :: rest => rest
  | [] => []
  | _ :: rest => dropThroughLossEq rest

/-- Number of fractional digits of the loss field of a checkpoint
filename: the digits standing between the first `.` after `loss=` and the
next non-digit character. -/
def lossFracDigits (s : String) : ℕ :=
  let after := dropThroughLossEq s.toList
  (((after.dropWhile fun c => c != '.').drop 1).takeWhile Char.isDigit).length

/-! ## Checkpoint slots and the per-epoch consideration step
(trainer.py lines 172-173 and 202-216). -/

/-- Observable side effects of `fit`: test passes, TensorBoard
flush/close, and checkpoint file deletions/saves, in program order. -/
inductive FitEvent where
  | testRun (epoch : ℕ)
  | flushWriter
  | closeWriter
  | deleteCkpt (name : String)
  | saveCkpt (name : String)
deriving DecidableEq

/-- True exactly on checkpoint-deletion events. -/
def isDeleteEv : FitEvent → Bool
  | FitEvent.deleteCkpt _ => true
  | _ => false

/-- True exactly on test-pass events. -/
def isTestRunEv : FitEvent → Bool
  | FitEvent.testRun _ => true
  | _ => false

/-- The checkpoint manager's state inside `fit`: `best_losses`
(`np.ones(top_checkpoints_n) * np.inf` initially, `⊤` standing for
`np.inf`) and the parallel `model_names` (`[None] * top_checkpoints_n`
initially). -/
structure CkptState where
  bestLosses : List (WithTop ℚ)
  modelNames : List (Option String)
deriving DecidableEq

/-- Helper for `np_argmax`: the (first-occurrence) maximum of a list
together with its index.  Scanning from the head, an element strictly
greater than the running maximum of the tail replaces it; on ties the
earlier (head-side) index wins. -/
def argmaxPair : List (WithTop ℚ) → Option (ℕ × WithTop ℚ)
  | [] => none
  | x :: xs =>
    match argmaxPair xs with
    | none => some (0, x)
    | some (j, m) => if x < m then some (j + 1, m) else some (0, x)

/-- `np.argmax` on a rank-1 array: index of the maximum value, ties broken
by first occurrence (numpy's documented behaviour); `none` on an empty
array (numpy raises `ValueError` there). -/
def np_argmax (l : List (WithTop ℚ)) : Option ℕ :=
  (argmaxPair l).map Prod.fst

/-- The per-epoch checkpoint consideration (trainer.py `fit`, lines
202-216): locate `max_loss_idx = np.argmax(best_losses)`; if the current
metric is strictly below that slot's value, delete the slot's old artifact
(when present), save the new one via `save_model(model, optimizer,
true_epoch, curr_k_metric_value, save_dir)` and overwrite the slot's metric
and name; otherwise leave everything unchanged. -/
def considerCheckpoint (save_dir : String) (s : CkptState) (true_epoch : ℕ) (curr : ℚ) :
    Except String (CkptState × List FitEvent) :=
  match np_argmax s.bestLosses with
  | none => Except.error "ValueError: attempt to get argmax of an empty sequence"
  | some max_loss_idx =>
    let max_loss_value := s.bestLosses.getD max_loss_idx ⊤
    let max_loss_model := s.modelNames.getD max_loss_idx none
    if (curr : WithTop ℚ) < max_loss_value then
      let model_name := saveModelName true_epoch curr save_dir ""
      let delete_events : List FitEvent :=
        match max_loss_model with
        | some old => [FitEvent.deleteCkpt old]
        | none => []
      Except.ok
        (⟨s.bestLosses.set max_loss_idx (curr : WithTop ℚ),
          s.modelNames.set max_loss_idx (some model_name)⟩,
         delete_events ++ [FitEvent.saveCkpt model_name])
    else Except.ok (s, [])

/-- Well-formedness of the checkpoint slot arrays: both keep exactly `K`
entries, and a slot is unfilled (metric `⊤`, i.e. `np.inf`) exactly when
its artifact handle is absent. -/
def CkptWF (s : CkptState) (K : ℕ) : Prop :=
  s.bestLosses.length = K ∧ s.modelNames.length = K ∧
    ∀ j, j < K → (s.bestLosses.getD j ⊤ = ⊤ ↔ s.modelNames.getD j none = none)

/-- What one consideration event does, stated over the embedding: the step
succeeds, there is an index `i < K` holding the (first-occurrence) maximum
metric, and either the metric strictly improves on slot `i` — then exactly
slot `i` of each array is overwritten — or both arrays are left unchanged
and no file events occur; well-formedness (exactly `K` slots, unfilled ↔
`⊤` ↔ absent handle) is preserved. -/
def ConsiderSpec (save_dir : String) (s : CkptState) (K true_epoch : ℕ) (curr : ℚ) : Prop :=
  ∃ i s1 evs,
    considerCheckpoint save_dir s true_epoch curr = Except.ok (s1, evs) ∧
    i < K ∧
    (∀ j, j < K → s.bestLosses.getD j ⊤ ≤ s.bestLosses.getD i ⊤) ∧
    (∀ j, j < i → s.bestLosses.getD j ⊤ < s.bestLosses.getD i ⊤) ∧
    (if (curr : WithTop ℚ) < s.bestLosses.getD i ⊤ then
      s1.bestLosses = s.bestLosses.set i (curr : WithTop ℚ) ∧
        s1.modelNames = s.modelNames.set i (some (saveModelName true_epoch curr save_dir ""))
    else s1 = s ∧ evs = []) ∧
    CkptWF s1 K

/-! ## The fit orchestrator (trainer.py lines 136-229). -/

/-- Arguments of trainer.py `fit`.  The model, dataloaders, loss function,
optimizer, scheduler and writer are abstracted into the three per-epoch
loss oracles `trainL`, `valL`, `testL` (indexed by the absolute epoch
`true_epoch`): they give the values the calls `train_loop(...)`,
`validation_loop(...)` and `test_loop(...)` return at that epoch — `fit`
consumes the loops only through these scalar results.  (The loops
themselves, including their empty-dataloader failure, are modelled
standalone above.) -/
structure FitParams where
  nepochs : ℕ
  prev_epochs : ℕ
  test_freq : ℕ
  top_checkpoints_n : ℕ
  loss_metric : String
  save_dir : String
  trainL : ℕ → ℚ
  valL : ℕ → ℚ
  testL : ℕ → ℚ

/-- The loop-carried state of `fit`: the three loss histories, the
checkpoint slot arrays, the recorded event trace, and the last value
assigned to the loop-local `true_epoch` (`none` while the loop body has
never run — Python's unbound local). -/
structure FitAcc where
  train_losses : List ℚ
  val_losses : List ℚ
  test_losses : List ℚ
  best_losses : List (WithTop ℚ)
  model_names : List (Option String)
  events : List FitEvent
  lastTrueEpoch : Option ℕ

/-- What `fit` returns (train/val/test histories and retained checkpoint
names), together with the final `best_losses` array and the event trace as
further observables of the run. -/
structure FitResult where
  train_losses : List ℚ
  val_losses : List ℚ
  test_losses : List ℚ
  model_names : List (Option String)
  best_losses : List (WithTop ℚ)
  events : List FitEvent

/-- Package the accumulator into the returned observables. -/
def mkFitResult (acc : FitAcc) : FitResult :=
  ⟨acc.train_losses, acc.val_losses, acc.test_losses, acc.model_names,
    acc.best_losses, acc.events⟩

/-- Lines 202-216 of trainer.py `fit` as applied to the accumulator:
select the metric (`train_loss` when `loss_metric == 'train'`, else
`val_loss`) and run the checkpoint consideration. -/
def checkpointStep (p : FitParams) (acc : FitAcc) (true_epoch : ℕ)
    (train_loss val_loss : ℚ) : Except String FitAcc :=
  let curr_k_metric_value := if p.loss_metric = "train" then train_loss else val_loss
  match considerCheckpoint p.save_dir ⟨acc.best_losses, acc.model_names⟩
      true_epoch curr_k_metric_value with
  | Except.error e => Except.error e
  | Except.ok (s, evs) =>
    Except.ok { acc with best_losses := s.bestLosses, model_names := s.modelNames,
                         events := acc.events ++ evs }

/-- One iteration of the `for epoch in range(nepochs)` body of `fit`
(trainer.py lines 175-216): run the train and validation loops, append to
the histories, run the test loop when `true_epoch % test_freq == 0` (a
zero `test_freq` raises `ZeroDivisionError` in Python), then do the
checkpoint bookkeeping. -/
def epochStep (p : FitParams) (acc : FitAcc) (epoch : ℕ) : Except String FitAcc :=
  let true_epoch := epoch + p.prev_epochs
  let train_loss := p.trainL true_epoch
  let val_loss := p.valL true_epoch
  let acc1 := { acc with
    train_losses := acc.train_losses ++ [train_loss],
    val_losses := acc.val_losses ++ [val_loss],
    lastTrueEpoch := some true_epoch }
  if p.test_freq = 0 then
    Except.error "ZeroDivisionError: integer modulo by zero"
  else if true_epoch % p.test_freq = 0 then
    checkpointStep p { acc1 with
      test_losses := acc1.test_losses ++ [p.testL true_epoch],
      events := acc1.events ++ [FitEvent.testRun true_epoch] } true_epoch train_loss val_loss
  else checkpointStep p acc1 true_epoch train_loss val_loss

/-- The epoch loop of `fit`, by structural recursion on the number of
remaining epochs; `epoch` is the next loop index. -/
def fitEpochs (p : FitParams) : ℕ → ℕ → FitAcc → Except String FitAcc
  | 0, _, acc => Except.ok acc
  | n + 1, epoch, acc =>
    match epochStep p acc epoch with
    | Except.error e => Except.error e
    | Except.ok acc1 => fitEpochs p n (epoch + 1) acc1

/-- trainer.py `fit` (lines 136-229): initialize the slot arrays, run the
epoch loop, flush and close the writer, run the mandatory final test pass
at the last `true_epoch` (an `UnboundLocalError` when `nepochs == 0`, since
the loop never assigned `true_epoch`), then check the two final assertions
when `nepochs >= top_checkpoints_n` and return. -/
def fit (p : FitParams) : Except String FitResult :=
  let init : FitAcc :=
    { train_losses := [], val_losses := [], test_losses := [],
      best_losses := List.replicate p.top_checkpoints_n (⊤ : WithTop ℚ),
      model_names := List.replicate p.top_checkpoints_n (none : Option String),
      events := [], lastTrueEpoch := none }
  match fitEpochs p p.nepochs 0 init with
  | Except.error e => Except.error e
  | Except.ok acc0 =>
  let acc1 := { acc0 with
    events := acc0.events ++ [FitEvent.flushWriter, FitEvent.closeWriter] }
  match acc1.lastTrueEpoch with
  | none => Except.error "UnboundLocalError: local variable true_epoch referenced before assignment"
  | some true_epoch =>
  let acc2 := { acc1 with
    test_losses := acc1.test_losses ++ [p.testL true_epoch],
    events := acc1.events ++ [FitEvent.testRun true_epoch] }
  if p.top_checkpoints_n ≤ p.nepochs then
    if acc2.model_names.contains none then
      Except.error "AssertionError: None not in model_names"
    else if acc2.best_losses.all (fun x => decide (x < ⊤)) then
      Except.ok (mkFitResult acc2)
    else Except.error "AssertionError: all best_losses < inf"
  else Except.ok (mkFitResult acc2)

/-- The event trace of a successful `fit` run (empty on failure). -/
def fitEvents (p : FitParams) : List FitEvent :=
  match fit p with
  | Except.ok r => r.events
  | Except.error _ => []

/-- The final `best_losses` array of a successful `fit` run (empty on
failure). -/
def fitBestLosses (p : FitParams) : List (WithTop ℚ) :=
  match fit p with
  | Except.ok r => r.best_losses
  | Except.error _ => []

/-- The test-loss history of a successful `fit` run (empty on failure). -/
def fitTestLosses (p : FitParams) : List ℚ :=
  match fit p with
  | Except.ok r => r.test_losses
  | Except.error _ => []

/-! ## Loss module (loss_fxns.py). -/

/-- loss_fxns.py `subs_weighted_BCE` (lines 6-32), over an arbitrary field
of scalars.  `criterion` is torch's `nn.BCELoss(reduction='none')` applied
elementwise (an external library function; it is a parameter here and is
instantiated with the concrete binary cross-entropy `bceElem` over `ℝ`).
Tensors of shape `(batch, classes)` are `Fin b → Fin c → α`; weights, when
given, have shape `(batch, classes, 2)`.  `torch.mean(·, dim=0)` is the
per-class sum over the batch divided by the batch size, and the
`assert(rowwise_meaned.shape == (957,))` is the check `c = 957`, a fatal
`AssertionError` otherwise.  The `reduction` argument is accepted and, as
in the source, never used. -/
def subs_weighted_BCE {α : Type} [Field α] {b c : ℕ} (criterion : α → α → α)
    (y_pred y_true : Fin b → Fin c → α)
    (weights : Option (Fin b → Fin c → α × α)) (reduction : String) :
    Except String α :=
  let unweighted_loss : Fin b → Fin c → α := fun i j => criterion (y_pred i j) (y_true i j)
  let weighted_loss : Fin b → Fin c → α :=
    match weights with
    | some w => fun i j =>
        (y_true i j * (w i j).2 + (1 - y_true i j) * (w i j).1) * unweighted_loss i j
    | none => fun i j => 1 * unweighted_loss i j
  let rowwise_meaned : Fin c → α := fun j => (∑ i, weighted_loss i j) / (b : α)
  if c = 957 then Except.ok (∑ j, rowwise_meaned j)
  else Except.error "AssertionError: rowwise_meaned.shape == (957,)"

/-- Torch's `nn.BCELoss(reduction='none')` on one element (an external
library function, modelled from its documented formula): the negative
log-likelihood `-(y·log x + (1-y)·log(1-x))` with each log clamped below at
`-100`, which is how torch keeps the loss finite at the endpoints. -/
noncomputable def bceElem (x y : ℝ) : ℝ :=
  -(y * max (Real.log x) (-100) + (1 - y) * max (Real.log (1 - x)) (-100))

/-! ## Prediction serialization (top_level_utils.py lines 88-179). -/

/-- top_level_utils.py `find_max_length` (lines 107-110):
`reduce(lambda x, y: x + y, preds)` concatenates the per-record prediction
lists (`TypeError` on an empty `preds`, since `reduce` has no initializer),
and `max([len(elem) for elem in flattened_preds])` is the greatest sequence
length (`ValueError` when there are no sequences at all); the two failure
modes are both `none`. -/
def find_max_length (preds : List (List (List ℤ))) : Option ℕ :=
  match preds with
  | [] => none
  | p :: rest =>
    let flattened_preds := rest.foldl (fun x y => x ++ y) p
    match flattened_preds with
    | [] => none
    | f :: fs => some (fs.foldl (fun m e => max m e.length) f.length)

/-- top_level_utils.py `pad_single_prediction` (lines 112-122): right-pad
each sequence of one record to `max_len` with the pad token
(`np.pad(elem, (0, max_len - len(elem)), 'constant', …)`; the call is only
reached with `max_len` the global maximum, so the pad width is the
truncated subtraction). -/
def pad_single_prediction (pred : List (List ℤ)) (max_len : ℕ) (pad_token : ℤ) :
    List (List ℤ) :=
  pred.map fun elem => elem ++ List.replicate (max_len - elem.length) pad_token

/-- Strip trailing pad tokens from one padded row: everything after the
last non-pad element is removed.  This is the downstream consumer's
recovery operation used to state the padding round-trip. -/
def stripTrailing (pad_token : ℤ) (l : List ℤ) : List ℤ :=
  (l.reverse.dropWhile (fun x => x == pad_token)).reverse

/-- One prediction record, `(tgt, [pred, ...])`: the payload is either
strings or numeric arrays (the serializer dispatches on the type of the
first record's target). -/
inductive PredTuple where
  | strTuple (tgt : String) (preds : List String)
  | arrTuple (tgt : List ℤ) (preds : List (List ℤ))

/-- A named h5 group as written by `save_str_set` / `save_array_set`:
either the two string datasets, or the padded numeric datasets together
with the persisted `additional_pad_token` scalar. -/
inductive H5Group where
  | strGroup (name : String) (targets : List String) (predictions : List (List String))
  | arrGroup (name : String) (targets : List (List ℤ))
      (predictions : List (List (List ℤ))) (additional_pad_token : ℤ)
deriving DecidableEq

/-- A Python file handle: `plainFile` is what the builtin `open(…, 'w')`
returns (a text-file object with no `create_group` attribute), `h5File` an
`h5py.File` with its list of groups. -/
inductive FileHandle where
  | plainFile
  | h5File (groups : List H5Group)
deriving DecidableEq

/-- Python's `elem[0]` on a string record (`[elem[0] for elem in preds]` is
a total comprehension; the array variant of a record is unreachable in a
well-typed batch and maps to a junk default). -/
def strTgt : PredTuple → String
  | PredTuple.strTuple t _ => t
  | PredTuple.arrTuple _ _ => ""

/-- Python's `elem[1]` on a string record (see `strTgt`). -/
def strPreds : PredTuple → List String
  | PredTuple.strTuple _ pr => pr
  | PredTuple.arrTuple _ _ => []

/-- Python's `elem[0]` on an array record (see `strTgt`). -/
def arrTgt : PredTuple → List ℤ
  | PredTuple.arrTuple t _ => t
  | PredTuple.strTuple _ _ => []

/-- Python's `elem[1]` on an array record (see `strTgt`). -/
def arrPreds : PredTuple → List (List ℤ)
  | PredTuple.arrTuple _ pr => pr
  | PredTuple.strTuple _ _ => []

/-- top_level_utils.py `save_str_set` (lines 88-105): extract the target
and prediction lists and write them as two datasets of a new group.
Calling `create_group` on a handle that is not an `h5py.File` raises
`AttributeError`. -/
def save_str_set (h5ptr : FileHandle) (preds : List PredTuple) (savename : String) :
    Except String FileHandle :=
  let targets := preds.map strTgt
  let predictions := preds.map strPreds
  match h5ptr with
  | FileHandle.plainFile =>
    Except.error "AttributeError: object has no attribute create_group"
  | FileHandle.h5File groups =>
    Except.ok (FileHandle.h5File (groups ++ [H5Group.strGroup savename targets predictions]))

/-- top_level_utils.py `save_array_set` (lines 124-146): extract targets
and predictions, compute the global maximum sequence length, pad every
sequence to it with the pad token `999_999`, then create the group with
the `targets`, padded `predictions` and `additional_pad_token` datasets.
The padding computation precedes the `create_group` call, as in the
source; `create_group` on a non-h5 handle raises `AttributeError`. -/
def save_array_set (h5ptr : FileHandle) (preds : List PredTuple) (savename : String) :
    Except String FileHandle :=
  let targets := preds.map arrTgt
  let predictions := preds.map arrPreds
  match find_max_length predictions with
  | none => Except.error "TypeError: reduce() of empty iterable with no initial value"
  | some max_len =>
  let pad_token : ℤ := 999999
  let padded := predictions.map fun elem => pad_single_prediction elem max_len pad_token
  match h5ptr with
  | FileHandle.plainFile =>
    Except.error "AttributeError: object has no attribute create_group"
  | FileHandle.h5File groups =>
    Except.ok (FileHandle.h5File
      (groups ++ [H5Group.arrGroup savename targets padded pad_token]))

/-- top_level_utils.py `save_inference_predictions` (lines 148-179).  The
function unconditionally evaluates `train_predictions[0]` (a `TypeError`
when the train split is absent, an `IndexError` when it is empty), asserts
the element is a tuple (always true in this typed model), opens the output
with the builtin `open(f"{savedir}/predictions.h5", 'w')` — a plain text
file handle, not an `h5py.File` — dispatches the save function on the
payload type of the first element, and runs it on each split that is not
`None`. -/
def save_inference_predictions (savedir : String)
    (train_predictions val_predictions test_predictions : Option (List PredTuple)) :
    Except String FileHandle :=
  match train_predictions with
  | none => Except.error "TypeError: NoneType object is not subscriptable"
  | some [] => Except.error "IndexError: list index out of range"
  | some (test_element :: _) =>
  let f := FileHandle.plainFile
  let save_fxn := match test_element with
    | PredTuple.strTuple _ _ => save_str_set
    | PredTuple.arrTuple _ _ => save_array_set
  match (match train_predictions with
    | some tp => save_fxn f tp "train"
    | none => Except.ok f) with
  | Except.error e => Except.error e
  | Except.ok f1 =>
  match (match val_predictions with
    | some vp => save_fxn f1 vp "val"
    | none => Except.ok f1) with
  | Except.error e => Except.error e
  | Except.ok f2 =>
  match (match test_predictions with
    | some tp => save_fxn f2 tp "test"
    | none => Except.ok f2) with
  | Except.error e => Except.error e
  | Except.ok f3 => Except.ok f3

/-! ## Concrete scenario parameters used by the scenario claims. -/

/-- The C2 scenario: `K = 2` slots, selection metric `val`, validation
losses 5, 3, 4, 1 over four epochs (each epoch's loop results given
directly by the oracles). -/
def c2Params : FitParams :=
  { nepochs := 4, prev_epochs := 0, test_freq := 5, top_checkpoints_n := 2,
    loss_metric := "val", save_dir := "ckpts",
    trainL := fun _ => 100,
    valL := fun e => if e = 0 then 5 else if e = 1 then 3 else if e = 2 then 4 else 1,
    testL := fun _ => 7 }

/-- The C3 scenario: `nepochs = 3`, `test_freq = 10`, no resume offset,
default `top_checkpoints_n = 10`. -/
def c3Params : FitParams :=
  { nepochs := 3, prev_epochs := 0, test_freq := 10, top_checkpoints_n := 10,
    loss_metric := "val", save_dir := "ckpts",
    trainL := fun _ => 1, valL := fun _ => 2, testL := fun _ => 3 }

/-! ## Small helper lemmas. -/

/-- A digit character for a value below ten is a decimal digit. -/
theorem digitChar_isDigit_of_lt_ten : ∀ m, m < 10 → (Nat.digitChar m).isDigit = true := by
  decide

/-- The fractional block of `formatFixed8` always holds exactly eight
characters. -/
theorem fracDigits8_length (m : ℕ) : (fracDigits8 m).length = 8 := by
  simp [fracDigits8, String.length]

/-- Every character of the fractional block of `formatFixed8` is a decimal
digit. -/
theorem fracDigits8_digits (m : ℕ) : (fracDigits8 m).toList.all Char.isDigit = true := by
  simp only [fracDigits8, String.toList, List.all_eq_true]
  intro c hc
  simp only [String.mk, List.mem_map] at hc
  obtain ⟨k, -, rfl⟩ := hc
  exact digitChar_isDigit_of_lt_ten _ (Nat.mod_lt _ (by norm_num))

/-! ## Claim theorems. -/

/-- C10: each of `train_loop`, `validation_loop` and `test_loop` fails
with a division-by-zero on an empty data split (zero batches) instead of
returning a defined mean. -/
theorem claim_C10_empty_split_division_error :
    train_loop [] = Except.error "ZeroDivisionError: division by zero" ∧
    validation_loop [] = Except.error "ZeroDivisionError: division by zero" ∧
    test_loop [] = Except.error "ZeroDivisionError: division by zero" :=
  ⟨rfl, rfl, rfl⟩

/-- C9: with `nepochs = 0` the epoch loop never runs, so the mandatory
final test pass references the never-assigned loop-local `true_epoch` and
`fit` fails with an unbound-variable error instead of returning the four
result sequences. -/
theorem claim_C9_zero_epochs_unbound_local (prev_epochs test_freq top_checkpoints_n : ℕ)
    (loss_metric save_dir : String) (trainL valL testL : ℕ → ℚ) :
    fit ⟨0, prev_epochs, test_freq, top_checkpoints_n, loss_metric, save_dir,
        trainL, valL, testL⟩ =
      Except.error "UnboundLocalError: local variable true_epoch referenced before assignment" :=
  rfl

/-- C5 (code bug): `save_inference_predictions` never writes the supplied
splits.  With the train split absent it fails indexing `None`
(`train_predictions[0]`); with splits supplied it opens the output with the
builtin `open` and the first `create_group` call on that plain file handle
fails, for the string payload and the array payload alike. -/
theorem claim_C5_save_inference_never_succeeds :
    save_inference_predictions "outdir" none (some [PredTuple.strTuple "t" ["p"]])
        (some [PredTuple.strTuple "u" ["q"]]) =
      Except.error "TypeError: NoneType object is not subscriptable" ∧
    save_inference_predictions "outdir" (some [PredTuple.strTuple "t" ["p"]])
        (some [PredTuple.strTuple "u" ["q"]]) (some [PredTuple.strTuple "v" ["r"]]) =
      Except.error "AttributeError: object has no attribute create_group" ∧
    save_inference_predictions "outdir" (some [PredTuple.arrTuple [1] [[2]]]) none none =
      Except.error "AttributeError: object has no attribute create_group" :=
  ⟨rfl, rfl, rfl⟩

/-- C2: with `K = 2` slots (both starting at `+∞` metric and absent
handle) and selection metrics 5, 3, 4, 1 over four epochs, the final slots
hold exactly the metrics 1 and 3, and exactly two deletions occurred, in
order: the artifact saved with metric 5, then the artifact saved with
metric 4. -/
theorem claim_C2_topk_scenario :
    fitBestLosses c2Params = [((1 : ℚ) : WithTop ℚ), ((3 : ℚ) : WithTop ℚ)] ∧
    (fitEvents c2Params).filter isDeleteEv =
      [FitEvent.deleteCkpt "ckpts/model_epoch=0_loss=5.00000000.pt",
       FitEvent.deleteCkpt "ckpts/model_epoch=2_loss=4.00000000.pt"] := by
  decide

/-- C3 counterexample: at `nepochs = 3`, `test_freq = 10` the full event
trace of `fit` ends with the final test pass, and the flush/close of the
metrics sink happens before it — not after it as the claim states. -/
theorem claim_C3_counterexample :
    fitEvents c3Params =
      [FitEvent.testRun 0,
       FitEvent.saveCkpt "ckpts/model_epoch=0_loss=2.00000000.pt",
       FitEvent.saveCkpt "ckpts/model_epoch=1_loss=2.00000000.pt",
       FitEvent.saveCkpt "ckpts/model_epoch=2_loss=2.00000000.pt",
       FitEvent.flushWriter, FitEvent.closeWriter, FitEvent.testRun 2] ∧
    (fitEvents c3Params).getLast? = some (FitEvent.testRun 2) := by
  decide

/-- C8 counterexample: the filename returned by `save_model` carries the
loss to eight decimal places, not six (shown at epoch 3, loss 5). -/
theorem claim_C8_counterexample :
    lossFracDigits ((save_model "model_state" "optim_state" 3 (5 : ℚ) "ckpts" "").1) = 8 ∧
    lossFracDigits ((save_model "model_state" "optim_state" 3 (5 : ℚ) "ckpts" "").1) ≠ 6 := by
  decide

/-- C8 (amended): every `save_model` call persists a bundle of exactly the
two named blobs `model_state_dict` and `optimizer_state_dict`, and the
returned filename encodes the epoch and the loss metric to eight-decimal
precision, with the optional tag appended when it is non-empty. -/
theorem claim_C8_bundle_and_eight_decimal_name {γ : Type} (model_state optim_state : γ)
    (epoch : ℕ) (loss_metric : ℚ) (savedir tag : String) :
    (save_model model_state optim_state epoch loss_metric savedir tag).2.map Prod.fst =
      ["model_state_dict", "optimizer_state_dict"] ∧
    (save_model model_state optim_state epoch loss_metric savedir tag).1 =
      savedir ++ "/model_epoch=" ++ toString epoch ++ "_loss=" ++ formatFixed8 loss_metric ++
        (if tag = "" then "" else "_" ++ tag) ++ ".pt" ∧
    ∃ frac, formatFixed8 loss_metric =
        (if loss_metric < 0 then "-" else "") ++
          toString ((2 * (loss_metric.num.natAbs * 10 ^ 8) + loss_metric.den) /
            (2 * loss_metric.den) / 10 ^ 8) ++ "." ++ frac ∧
      frac.length = 8 ∧ frac.toList.all Char.isDigit = true := by
  refine ⟨rfl, ?_, fracDigits8 ((2 * (loss_metric.num.natAbs * 10 ^ 8) + loss_metric.den) /
    (2 * loss_metric.den) % 10 ^ 8), rfl, fracDigits8_length _, fracDigits8_digits _⟩
  by_cases ht : tag = "" <;>
    simp [save_model, saveModelName, ht, String.append_assoc]

/-- C6: with `weights = None`, `subs_weighted_BCE` returns the unweighted
loss — the elementwise binary cross-entropy averaged across the batch
dimension per output class and then summed across the 957 classes — and
this equals the weighted path with all weights equal to one. -/
theorem claim_C6_none_weights_unweighted (b : ℕ) (y_pred y_true : Fin b → Fin 957 → ℝ) :
    subs_weighted_BCE bceElem y_pred y_true none "mean" =
      Except.ok (∑ j : Fin 957, (∑ i : Fin b, bceElem (y_pred i j) (y_true i j)) / (b : ℝ)) ∧
    subs_weighted_BCE bceElem y_pred y_true none "mean" =
      subs_weighted_BCE bceElem y_pred y_true (some fun _ _ => (1, 1)) "mean" := by
  constructor
  · simp [subs_weighted_BCE]
  · simp only [subs_weighted_BCE, if_pos rfl]
    refine congrArg Except.ok (Finset.sum_congr rfl fun j _ => ?_)
    refine congrArg (· / (b : ℝ)) (Finset.sum_congr rfl fun i _ => ?_)
    ring

/-- C7: `subs_weighted_BCE` fails with a fatal assertion error exactly
when the class dimension differs from the fixed cardinality 957; with 957
classes the assertion never fires and a scalar is returned normally. -/
theorem claim_C7_class_count_assertion {α : Type} [Field α] (b c : ℕ)
    (criterion : α → α → α) (y_pred y_true : Fin b → Fin c → α)
    (weights : Option (Fin b → Fin c → α × α)) (reduction : String) :
    (c ≠ 957 → subs_weighted_BCE criterion y_pred y_true weights reduction =
      Except.error "AssertionError: rowwise_meaned.shape == (957,)") ∧
    (c = 957 → ∃ r : α, subs_weighted_BCE criterion y_pred y_true weights reduction =
      Except.ok r) := by
  constructor
  · intro h
    simp [subs_weighted_BCE, h]
  · rintro rfl
    exact ⟨_, rfl⟩

/-! ## Lemmas about the serializer's padding (claim C4). -/

/-- The left fold of list concatenation is the flattened concatenation. -/
theorem foldl_append_eq_flatten (ps : List (List (List ℤ))) (init : List (List ℤ)) :
    ps.foldl (fun x y => x ++ y) init = init ++ ps.flatten := by
  induction ps generalizing init with
  | nil => simp
  | cons p ps ih => simp [ih, List.append_assoc]

/-- The running maximum of sequence lengths is at least its seed. -/
theorem le_foldl_max_length (fs : List (List ℤ)) (a : ℕ) :
    a ≤ fs.foldl (fun m e => max m e.length) a := by
  induction fs generalizing a with
  | nil => simp
  | cons f fs ih => exact le_trans (le_max_left _ _) (ih _)

/-- The running maximum of sequence lengths bounds every member. -/
theorem length_le_foldl_max (fs : List (List ℤ)) :
    ∀ (a : ℕ) (e : List ℤ), e ∈ fs → e.length ≤ fs.foldl (fun m e => max m e.length) a := by
  induction fs with
  | nil => intro a e he; cases he
  | cons f fs ih =>
    intro a e he
    rcases List.mem_cons.mp he with rfl | he
    · exact le_trans (le_max_right _ _) (le_foldl_max_length _ _)
    · exact ih _ _ he

/-- A successful `find_max_length` bounds the length of every sequence of
every record of the batch. -/
theorem find_max_length_bound (preds : List (List (List ℤ))) (m : ℕ)
    (h : find_max_length preds = some m) :
    ∀ l ∈ preds, ∀ s ∈ l, s.length ≤ m := by
  intro l hl s hs
  cases preds with
  | nil => cases h
  | cons p rest =>
    have hsf : s ∈ p ++ rest.flatten := by
      rcases List.mem_cons.mp hl with rfl | hl
      · exact List.mem_append_left _ hs
      · exact List.mem_append_right _ (List.mem_flatten.mpr ⟨l, hl, hs⟩)
    have h' : (match p ++ rest.flatten with
        | [] => (none : Option ℕ)
        | f :: fs => some (fs.foldl (fun m e => max m e.length) f.length)) = some m := by
      rw [← foldl_append_eq_flatten]
      exact h
    cases hflat : p ++ rest.flatten with
    | nil => rw [hflat] at hsf; cases hsf
    | cons f fs =>
      rw [hflat] at h' hsf
      obtain rfl : fs.foldl (fun m e => max m e.length) f.length = m := by
        simpa using h'
      rcases List.mem_cons.mp hsf with rfl | hsf
      · exact le_foldl_max_length _ _
      · exact length_le_foldl_max _ _ _ hsf

/-- Dropping pad tokens walks through a leading block of pad tokens. -/
theorem dropWhile_beq_replicate_append (pad : ℤ) (k : ℕ) (t : List ℤ) :
    (List.replicate k pad ++ t).dropWhile (fun x => x == pad) =
      t.dropWhile (fun x => x == pad) := by
  induction k with
  | zero => simp
  | succ k ih => simp [List.replicate_succ, List.dropWhile_cons, ih]

/-- Dropping pad tokens from a list that does not hold the pad token
drops nothing. -/
theorem dropWhile_beq_eq_self (pad : ℤ) (t : List ℤ) (h : pad ∉ t) :
    t.dropWhile (fun x => x == pad) = t := by
  cases t with
  | nil => rfl
  | cons c cs =>
    have hc : (c == pad) = false := by
      simp only [beq_eq_false_iff_ne, ne_eq]
      rintro rfl
      exact h (List.mem_cons_self _ _)
    simp [List.dropWhile_cons, hc]

/-- Stripping trailing pad tokens undoes right-padding, for any sequence
free of the pad token. -/
theorem stripTrailing_append_replicate (pad : ℤ) (l : List ℤ) (k : ℕ) (h : pad ∉ l) :
    stripTrailing pad (l ++ List.replicate k pad) = l := by
  unfold stripTrailing
  rw [List.reverse_append, List.reverse_replicate, dropWhile_beq_replicate_append,
    dropWhile_beq_eq_self pad _ (by simpa using h), List.reverse_reverse]

/-- Every padded row of a record reaches exactly the target width once the
width bounds all of the record's sequence lengths. -/
theorem pad_single_prediction_length (pred : List (List ℤ)) (m : ℕ) (pad : ℤ)
    (hb : ∀ s ∈ pred, s.length ≤ m) :
    ∀ row ∈ pad_single_prediction pred m pad, row.length = m := by
  intro row hrow
  simp only [pad_single_prediction, List.mem_map] at hrow
  obtain ⟨s, hs, rfl⟩ := hrow
  have := hb s hs
  simp only [List.length_append, List.length_replicate]
  omega

/-- Stripping the pad token rowwise recovers the record exactly. -/
theorem pad_single_prediction_strip (pred : List (List ℤ)) (m : ℕ) (pad : ℤ)
    (hnp : ∀ s ∈ pred, pad ∉ s) :
    (pad_single_prediction pred m pad).map (stripTrailing pad) = pred := by
  simp only [pad_single_prediction, List.map_map]
  have : ∀ s ∈ pred, (stripTrailing pad ∘ fun elem =>
      elem ++ List.replicate (m - elem.length) pad) s = id s := by
    intro s hs
    exact stripTrailing_append_replicate pad s _ (hnp s hs)
  rw [List.map_congr_left this, List.map_id]

/-- Extracting `elem[0]` over a batch of array records yields the targets. -/
theorem map_arrTgt_arrTuple (entries : List (List ℤ × List (List ℤ))) :
    (entries.map fun e => PredTuple.arrTuple e.1 e.2).map arrTgt = entries.map Prod.fst := by
  rw [List.map_map]
  exact List.map_congr_left fun e _ => rfl

/-- Extracting `elem[1]` over a batch of array records yields the
prediction lists. -/
theorem map_arrPreds_arrTuple (entries : List (List ℤ × List (List ℤ))) :
    (entries.map fun e => PredTuple.arrTuple e.1 e.2).map arrPreds = entries.map Prod.snd := by
  rw [List.map_map]
  exact List.map_congr_left fun e _ => rfl

/-- C4: on a ragged numeric batch with a uniform number of predictions per
record and no occurrence of the pad token, `save_array_set` succeeds,
stores the padded matrix alongside the pad token `999999`, pads every row
to the batch-wide maximum width `m`, and stripping trailing pad tokens
from each padded row recovers every original variable-length sequence. -/
theorem claim_C4_padding_round_trip (groups : List H5Group) (savename : String)
    (entries : List (List ℤ × List (List ℤ))) (c m : ℕ)
    (hsame : ∀ e ∈ entries, e.2.length = c)
    (hmax : find_max_length (entries.map Prod.snd) = some m)
    (hnopad : ∀ e ∈ entries, ∀ s ∈ e.2, (999999 : ℤ) ∉ s) :
    save_array_set (FileHandle.h5File groups)
        (entries.map fun e => PredTuple.arrTuple e.1 e.2) savename =
      Except.ok (FileHandle.h5File (groups ++
        [H5Group.arrGroup savename (entries.map Prod.fst)
          ((entries.map Prod.snd).map fun el => pad_single_prediction el m 999999)
          999999])) ∧
    (∀ el ∈ entries.map Prod.snd, ∀ row ∈ pad_single_prediction el m 999999,
      row.length = m) ∧
    ((entries.map Prod.snd).map fun el =>
        (pad_single_prediction el m 999999).map (stripTrailing 999999)) =
      entries.map Prod.snd := by
  refine ⟨?_, ?_, ?_⟩
  · simp only [save_array_set, map_arrTgt_arrTuple, map_arrPreds_arrTuple, hmax]
  · intro el hel
    obtain ⟨e, he, rfl⟩ := List.mem_map.mp hel
    exact pad_single_prediction_length _ _ _
      (find_max_length_bound _ _ hmax _ (List.mem_map.mpr ⟨e, he, rfl⟩))
  · have : ∀ el ∈ entries.map Prod.snd,
        (fun el => (pad_single_prediction el m 999999).map (stripTrailing 999999)) el =
          id el := by
      intro el hel
      obtain ⟨e, he, rfl⟩ := List.mem_map.mp hel
      exact pad_single_prediction_strip _ _ _ (hnopad e he)
    rw [List.map_congr_left this, List.map_id]

/-- C4 witness: a concrete two-record batch with sequence lengths 2, 1, 1
and 0 per record, maximum width 2, no occurrence of the pad token. -/
theorem claim_C4_witness :
    save_array_set (FileHandle.h5File [])
        ([(([0], [[1, 2], [3]]) : List ℤ × List (List ℤ)),
          ([4, 5], [[6], []])].map fun e => PredTuple.arrTuple e.1 e.2) "val" =
      Except.ok (FileHandle.h5File ([] ++
        [H5Group.arrGroup "val"
          ([(([0], [[1, 2], [3]]) : List ℤ × List (List ℤ)),
            ([4, 5], [[6], []])].map Prod.fst)
          (([(([0], [[1, 2], [3]]) : List ℤ × List (List ℤ)),
            ([4, 5], [[6], []])].map Prod.snd).map fun el =>
            pad_single_prediction el 2 999999)
          999999])) ∧
    (∀ el ∈ [(([0], [[1, 2], [3]]) : List ℤ × List (List ℤ)),
        ([4, 5], [[6], []])].map Prod.snd,
      ∀ row ∈ pad_single_prediction el 2 999999, row.length = 2) ∧
    (([(([0], [[1, 2], [3]]) : List ℤ × List (List ℤ)),
        ([4, 5], [[6], []])].map Prod.snd).map fun el =>
        (pad_single_prediction el 2 999999).map (stripTrailing 999999)) =
      [(([0], [[1, 2], [3]]) : List ℤ × List (List ℤ)), ([4, 5], [[6], []])].map Prod.snd :=
  claim_C4_padding_round_trip [] "val"
    [(([0], [[1, 2], [3]]) : List ℤ × List (List ℤ)), ([4, 5], [[6], []])] 2 2
    (by decide) (by decide) (by decide)

/-! ## Lemmas about `np_argmax` and the consideration step (claims C1-C3). -/

/-- Reading a set position through `getD` (in range). -/
theorem getD_set_self (l : List (WithTop ℚ)) (i : ℕ) (h : i < l.length)
    (a d : WithTop ℚ) : (l.set i a).getD i d = a := by
  rw [List.getD_eq_getElem _ _ (by simpa using h)]
  exact List.getElem_set_self _

/-- Reading an untouched position through `getD`. -/
theorem getD_set_ne (l : List (WithTop ℚ)) (i j : ℕ) (hne : i ≠ j)
    (a d : WithTop ℚ) : (l.set i a).getD j d = l.getD j d := by
  by_cases hj : j < l.length
  · rw [List.getD_eq_getElem _ _ (by simpa using hj), List.getD_eq_getElem _ _ hj]
    exact List.getElem_set_ne hne _
  · rw [List.getD_eq_default _ _ (by simpa using not_lt.mp hj),
      List.getD_eq_default _ _ (not_lt.mp hj)]

/-- Same two facts for the parallel name array. -/
theorem getD_set_self_names (l : List (Option String)) (i : ℕ) (h : i < l.length)
    (a d : Option String) : (l.set i a).getD i d = a := by
  rw [List.getD_eq_getElem _ _ (by simpa using h)]
  exact List.getElem_set_self _

/-- Reading an untouched position of the name array through `getD`. -/
theorem getD_set_ne_names (l : List (Option String)) (i j : ℕ) (hne : i ≠ j)
    (a d : Option String) : (l.set i a).getD j d = l.getD j d := by
  by_cases hj : j < l.length
  · rw [List.getD_eq_getElem _ _ (by simpa using hj), List.getD_eq_getElem _ _ hj]
    exact List.getElem_set_ne hne _
  · rw [List.getD_eq_default _ _ (by simpa using not_lt.mp hj),
      List.getD_eq_default _ _ (not_lt.mp hj)]

/-- Characterization of `argmaxPair`: on a non-empty list it returns the
index and value of the maximum, ties broken by first occurrence. -/
theorem argmaxPair_spec : ∀ (l : List (WithTop ℚ)), l ≠ [] →
    ∃ j m, argmaxPair l = some (j, m) ∧ j < l.length ∧ l.getD j ⊤ = m ∧
      (∀ k, k < l.length → l.getD k ⊤ ≤ m) ∧ (∀ k, k < j → l.getD k ⊤ < m) := by
  intro l
  induction l with
  | nil => intro h; exact absurd rfl h
  | cons x xs ih =>
    intro _
    rcases eq_or_ne xs [] with rfl | hne
    · refine ⟨0, x, rfl, by simp, rfl, ?_, by intro k hk; omega⟩
      intro k hk
      have hk0 : k = 0 := by simpa using hk
      subst hk0
      simp
    · obtain ⟨j, m, hpair, hjlt, hget, hmax, hfirst⟩ := ih hne
      by_cases hx : x < m
      · refine ⟨j + 1, m, ?_, by simpa using hjlt, by simpa using hget, ?_, ?_⟩
        · simp [argmaxPair, hpair, hx]
        · intro k hk
          cases k with
          | zero => simpa using le_of_lt hx
          | succ k =>
            rw [List.getD_cons_succ]
            exact hmax k (by simpa using hk)
        · intro k hk
          cases k with
          | zero => simpa using hx
          | succ k =>
            rw [List.getD_cons_succ]
            exact hfirst k (by omega)
      · refine ⟨0, x, ?_, by simp, rfl, ?_, by intro k hk; omega⟩
        · simp [argmaxPair, hpair, hx]
        · intro k hk
          cases k with
          | zero => simp
          | succ k =>
            rw [List.getD_cons_succ]
            exact le_trans (hmax k (by simpa using hk)) (not_lt.mp hx)

/-- Characterization of `np_argmax` on a non-empty list: the returned
index is in range, holds the maximum, and is its first occurrence. -/
theorem np_argmax_spec (l : List (WithTop ℚ)) (hne : l ≠ []) :
    ∃ i, np_argmax l = some i ∧ i < l.length ∧
      (∀ k, k < l.length → l.getD k ⊤ ≤ l.getD i ⊤) ∧
      (∀ k, k < i → l.getD k ⊤ < l.getD i ⊤) := by
  obtain ⟨j, m, hpair, hjlt, hget, hmax, hfirst⟩ := argmaxPair_spec l hne
  refine ⟨j, by simp [np_argmax, hpair], hjlt, ?_, ?_⟩
  · intro k hk
    rw [hget]
    exact hmax k hk
  · intro k hk
    rw [hget]
    exact hfirst k hk

/-- When the sentinel `⊤` is present, the maximum slot holds `⊤`. -/
theorem argmax_top_of_mem (l : List (WithTop ℚ)) (i : ℕ) (hmem : (⊤ : WithTop ℚ) ∈ l)
    (hmax : ∀ k, k < l.length → l.getD k ⊤ ≤ l.getD i ⊤) : l.getD i ⊤ = ⊤ := by
  obtain ⟨k, hk, hget⟩ := List.mem_iff_getElem.mp hmem
  have h := hmax k hk
  rw [List.getD_eq_getElem _ _ hk, hget] at h
  exact top_le_iff.mp h

/-- Overwriting a `⊤` slot with a finite metric removes one `⊤` from the
count. -/
theorem count_top_set_of_get_top (l : List (WithTop ℚ)) (i : ℕ) (hi : i < l.length)
    (htop : l.getD i ⊤ = ⊤) (q : ℚ) :
    (l.set i (q : WithTop ℚ)).count ⊤ = l.count ⊤ - 1 := by
  rw [List.count_set _ _ _ _ hi]
  have h1 : (l[i] == (⊤ : WithTop ℚ)) = true := by
    rw [List.getD_eq_getElem _ _ hi] at htop
    simp [htop]
  have h2 : (((q : WithTop ℚ)) == (⊤ : WithTop ℚ)) = false := by simp
  simp [h1, h2]

/-- Overwriting any slot of a `⊤`-free array with a finite metric keeps
the array `⊤`-free. -/
theorem count_top_set_of_not_mem (l : List (WithTop ℚ)) (i : ℕ) (q : ℚ)
    (hnm : (⊤ : WithTop ℚ) ∉ l) :
    (l.set i (q : WithTop ℚ)).count ⊤ = 0 := by
  rw [List.count_eq_zero]
  intro hmem
  rcases List.mem_or_eq_of_mem_set hmem with h | h
  · exact hnm h
  · exact WithTop.coe_ne_top h.symm

/-- Full description of one consideration step from a well-formed state:
success, the argmax properties of the touched index, the update/no-op
dichotomy, preservation of well-formedness, the effect on the number of
unfilled (`⊤`) slots, and the shape of the emitted events. -/
theorem considerCheckpoint_full (save_dir : String) (s : CkptState) (K true_epoch : ℕ)
    (curr : ℚ) (hWF : CkptWF s K) (hK : 1 ≤ K) :
    ∃ i s1 evs,
      considerCheckpoint save_dir s true_epoch curr = Except.ok (s1, evs) ∧
      i < K ∧
      (∀ j, j < K → s.bestLosses.getD j ⊤ ≤ s.bestLosses.getD i ⊤) ∧
      (∀ j, j < i → s.bestLosses.getD j ⊤ < s.bestLosses.getD i ⊤) ∧
      (if (curr : WithTop ℚ) < s.bestLosses.getD i ⊤ then
        s1.bestLosses = s.bestLosses.set i (curr : WithTop ℚ) ∧
          s1.modelNames = s.modelNames.set i (some (saveModelName true_epoch curr save_dir ""))
      else s1 = s ∧ evs = []) ∧
      CkptWF s1 K ∧
      s1.bestLosses.count ⊤ = s.bestLosses.count ⊤ - 1 ∧
      (∀ ev ∈ evs, isTestRunEv ev = false ∧
        ev ≠ FitEvent.flushWriter ∧ ev ≠ FitEvent.closeWriter) := by
  obtain ⟨hlen1, hlen2, hcorr⟩ := hWF
  have hne : s.bestLosses ≠ [] := by
    intro h
    rw [h] at hlen1
    simp at hlen1
    omega
  obtain ⟨i, hargmax, hilt, hmax, hfirst⟩ := np_argmax_spec _ hne
  have hiltK : i < K := hlen1 ▸ hilt
  have hmaxK : ∀ j, j < K → s.bestLosses.getD j ⊤ ≤ s.bestLosses.getD i ⊤ := by
    intro j hj
    exact hmax j (by rw [hlen1]; exact hj)
  by_cases hlt : (curr : WithTop ℚ) < s.bestLosses.getD i ⊤
  · refine ⟨i, ⟨s.bestLosses.set i (curr : WithTop ℚ),
        s.modelNames.set i (some (saveModelName true_epoch curr save_dir ""))⟩,
      (match s.modelNames.getD i none with
        | some old => [FitEvent.deleteCkpt old]
        | none => []) ++ [FitEvent.saveCkpt (saveModelName true_epoch curr save_dir "")],
      ?_, hiltK, hmaxK, hfirst, ?_, ?_, ?_, ?_⟩
    · simp only [considerCheckpoint, hargmax]
      rw [if_pos hlt]
    · rw [if_pos hlt]
      exact ⟨rfl, rfl⟩
    · refine ⟨by simp [hlen1], by simp [hlen2], ?_⟩
      intro j hj
      rcases eq_or_ne i j with rfl | hij
      · rw [getD_set_self _ _ (hlen1 ▸ hj) _ _, getD_set_self_names _ _ (hlen2 ▸ hj) _ _]
        simp
      · rw [getD_set_ne _ _ _ hij, getD_set_ne_names _ _ _ hij]
        exact hcorr j hj
    · by_cases hmem : (⊤ : WithTop ℚ) ∈ s.bestLosses
      · exact count_top_set_of_get_top _ _ hilt (argmax_top_of_mem _ _ hmem hmax) _
      · rw [count_top_set_of_not_mem _ _ _ hmem, List.count_eq_zero.mpr hmem]
    · intro ev hev
      rcases hmod : s.modelNames.getD i none with _ | old
      · rw [hmod] at hev
        simp at hev
        subst hev
        exact ⟨rfl, by simp, by simp⟩
      · rw [hmod] at hev
        simp at hev
        rcases hev with rfl | rfl
        · exact ⟨rfl, by simp, by simp⟩
        · exact ⟨rfl, by simp, by simp⟩
  · refine ⟨i, s, [], ?_, hiltK, hmaxK, hfirst, ?_, ⟨hlen1, hlen2, hcorr⟩, ?_, by simp⟩
    · simp only [considerCheckpoint, hargmax]
      rw [if_neg hlt]
    · rw [if_neg hlt]
      exact ⟨rfl, rfl⟩
    · have hnm : (⊤ : WithTop ℚ) ∉ s.bestLosses := by
        intro hmem
        rw [argmax_top_of_mem _ _ hmem hmax] at hlt
        exact hlt (WithTop.coe_lt_top curr)
      rw [List.count_eq_zero.mpr hnm]

/-- C1: from any well-formed slot state with `K ≥ 1` slots, one
consideration event mutates at most the single slot holding the maximum
metric (ties broken by first occurrence), does so only when the new metric
is strictly smaller, leaves both arrays completely unchanged otherwise,
and always preserves the `K`-slot well-formedness invariant (exactly `K`
entries, unfilled slots holding `⊤` and an absent handle). -/
theorem claim_C1_consider_worst_slot (save_dir : String) (s : CkptState)
    (K true_epoch : ℕ) (curr : ℚ) (hWF : CkptWF s K) (hK : 1 ≤ K) :
    ConsiderSpec save_dir s K true_epoch curr := by
  obtain ⟨i, s1, evs, h1, h2, h3, h4, h5, h6, -, -⟩ :=
    considerCheckpoint_full save_dir s K true_epoch curr hWF hK
  exact ⟨i, s1, evs, h1, h2, h3, h4, h5, h6⟩

/-- C1 witness: the consideration property at the concrete well-formed
two-slot empty state with incoming metric 5. -/
theorem claim_C1_witness :
    CkptWF ⟨[⊤, ⊤], [none, none]⟩ 2 ∧ 1 ≤ 2 ∧
      ConsiderSpec "ckpts" ⟨[⊤, ⊤], [none, none]⟩ 2 0 5 :=
  ⟨⟨rfl, rfl, by decide⟩, by omega,
    claim_C1_consider_worst_slot "ckpts" ⟨[⊤, ⊤], [none, none]⟩ 2 0 5
      ⟨rfl, rfl, by decide⟩ (by omega)⟩

/-- The checkpoint bookkeeping step of one epoch: succeeds from a
well-formed state, preserves well-formedness, decrements the number of
unfilled slots (saturating at zero), leaves the histories alone and only
appends save/delete events. -/
theorem checkpointStep_spec (p : FitParams) (acc : FitAcc) (te : ℕ) (tl vl : ℚ)
    (hWF : CkptWF ⟨acc.best_losses, acc.model_names⟩ p.top_checkpoints_n)
    (hK : 1 ≤ p.top_checkpoints_n) :
    ∃ acc1, checkpointStep p acc te tl vl = Except.ok acc1 ∧
      CkptWF ⟨acc1.best_losses, acc1.model_names⟩ p.top_checkpoints_n ∧
      acc1.best_losses.count ⊤ = acc.best_losses.count ⊤ - 1 ∧
      acc1.train_losses = acc.train_losses ∧
      acc1.val_losses = acc.val_losses ∧
      acc1.test_losses = acc.test_losses ∧
      acc1.lastTrueEpoch = acc.lastTrueEpoch ∧
      ∃ evs, acc1.events = acc.events ++ evs ∧
        (∀ ev ∈ evs, isTestRunEv ev = false ∧
          ev ≠ FitEvent.flushWriter ∧ ev ≠ FitEvent.closeWriter) := by
  obtain ⟨i, s1, evs, h1, -, -, -, -, hwf1, hcount, hevs⟩ :=
    considerCheckpoint_full p.save_dir ⟨acc.best_losses, acc.model_names⟩
      p.top_checkpoints_n te (if p.loss_metric = "train" then tl else vl) hWF hK
  refine ⟨{ acc with
      best_losses := s1.bestLosses,
      model_names := s1.modelNames,
      events := acc.events ++ evs }, ?_, hwf1, hcount, rfl, rfl, rfl, rfl, evs, rfl, hevs⟩
  simp only [checkpointStep, h1]

/-- One epoch-loop iteration: succeeds whenever `test_freq` is non-zero
and the slot state well-formed; it preserves the slot invariant, fills one
more slot (saturating), sets `true_epoch`, appends a test-loss entry and a
test event exactly when the absolute epoch is divisible by `test_freq`,
and never flushes or closes the writer. -/
theorem epochStep_spec (p : FitParams) (acc : FitAcc) (e : ℕ)
    (hfreq : p.test_freq ≠ 0) (hK : 1 ≤ p.top_checkpoints_n)
    (hWF : CkptWF ⟨acc.best_losses, acc.model_names⟩ p.top_checkpoints_n) :
    ∃ acc1, epochStep p acc e = Except.ok acc1 ∧
      CkptWF ⟨acc1.best_losses, acc1.model_names⟩ p.top_checkpoints_n ∧
      acc1.best_losses.count ⊤ = acc.best_losses.count ⊤ - 1 ∧
      acc1.lastTrueEpoch = some (e + p.prev_epochs) ∧
      acc1.test_losses.length = acc.test_losses.length +
        (if (e + p.prev_epochs) % p.test_freq = 0 then 1 else 0) ∧
      ∃ post, acc1.events = acc.events ++ post ∧
        post.filter isTestRunEv =
          (if (e + p.prev_epochs) % p.test_freq = 0
            then [FitEvent.testRun (e + p.prev_epochs)] else []) ∧
        FitEvent.flushWriter ∉ post ∧ FitEvent.closeWriter ∉ post := by
  by_cases hte : (e + p.prev_epochs) % p.test_freq = 0
  · obtain ⟨acc2, hok, hwf2, hcount2, htr, hv, hts, hlast, evs, hevents, hkinds⟩ :=
      checkpointStep_spec p
        { acc with
          train_losses := acc.train_losses ++ [p.trainL (e + p.prev_epochs)],
          val_losses := acc.val_losses ++ [p.valL (e + p.prev_epochs)],
          lastTrueEpoch := some (e + p.prev_epochs),
          test_losses := acc.test_losses ++ [p.testL (e + p.prev_epochs)],
          events := acc.events ++ [FitEvent.testRun (e + p.prev_epochs)] }
        (e + p.prev_epochs) (p.trainL (e + p.prev_epochs)) (p.valL (e + p.prev_epochs)) hWF hK
    refine ⟨acc2, ?_, hwf2, hcount2, by rw [hlast], ?_,
      [FitEvent.testRun (e + p.prev_epochs)] ++ evs, ?_, ?_, ?_, ?_⟩
    · simp only [epochStep]
      rw [if_neg hfreq, if_pos hte]
      exact hok
    · rw [hts]
      simp [hte]
    · rw [hevents]
      simp [List.append_assoc]
    · rw [List.filter_append]
      have : evs.filter isTestRunEv = [] :=
        List.filter_eq_nil_iff.mpr fun ev hev => by simp [(hkinds ev hev).1]
      simp [this, isTestRunEv, hte]
    · intro hmem
      rcases List.mem_append.mp hmem with h | h
      · simp at h
      · exact (hkinds _ h).2.1 rfl
    · intro hmem
      rcases List.mem_append.mp hmem with h | h
      · simp at h
      · exact (hkinds _ h).2.2 rfl
  · obtain ⟨acc2, hok, hwf2, hcount2, htr, hv, hts, hlast, evs, hevents, hkinds⟩ :=
      checkpointStep_spec p
        { acc with
          train_losses := acc.train_losses ++ [p.trainL (e + p.prev_epochs)],
          val_losses := acc.val_losses ++ [p.valL (e + p.prev_epochs)],
          lastTrueEpoch := some (e + p.prev_epochs) }
        (e + p.prev_epochs) (p.trainL (e + p.prev_epochs)) (p.valL (e + p.prev_epochs)) hWF hK
    refine ⟨acc2, ?_, hwf2, hcount2, by rw [hlast], ?_, evs, ?_, ?_, ?_, ?_⟩
    · simp only [epochStep]
      rw [if_neg hfreq, if_neg hte]
      exact hok
    · rw [hts]
      simp [hte]
    · rw [hevents]
    · have : evs.filter isTestRunEv = [] :=
        List.filter_eq_nil_iff.mpr fun ev hev => by simp [(hkinds ev hev).1]
      simp [this, hte]
    · intro hmem
      exact (hkinds _ hmem).2.1 rfl
    · intro hmem
      exact (hkinds _ hmem).2.2 rfl

/-- The epoch loop of `fit`, run for `n` epochs starting at loop index
`e` from a well-formed accumulator: it succeeds, preserves the slot
invariant, fills `n` more slots (saturating), records the last
`true_epoch`, and appends exactly the in-loop test events and test-loss
entries of the epochs whose absolute index is divisible by `test_freq`,
never flushing or closing the writer. -/
theorem fitEpochs_spec (p : FitParams) (hfreq : p.test_freq ≠ 0)
    (hK : 1 ≤ p.top_checkpoints_n) :
    ∀ (n e : ℕ) (acc : FitAcc),
      CkptWF ⟨acc.best_losses, acc.model_names⟩ p.top_checkpoints_n →
      ∃ acc1, fitEpochs p n e acc = Except.ok acc1 ∧
        CkptWF ⟨acc1.best_losses, acc1.model_names⟩ p.top_checkpoints_n ∧
        acc1.best_losses.count ⊤ = acc.best_losses.count ⊤ - n ∧
        acc1.lastTrueEpoch =
          (if n = 0 then acc.lastTrueEpoch else some (e + n - 1 + p.prev_epochs)) ∧
        acc1.test_losses.length = acc.test_losses.length +
          ((List.range' e n).filter fun k => (k + p.prev_epochs) % p.test_freq = 0).length ∧
        ∃ post, acc1.events = acc.events ++ post ∧
          post.filter isTestRunEv =
            ((List.range' e n).filter fun k => (k + p.prev_epochs) % p.test_freq = 0).map
              (fun k => FitEvent.testRun (k + p.prev_epochs)) ∧
          FitEvent.flushWriter ∉ post ∧ FitEvent.closeWriter ∉ post := by
  intro n
  induction n with
  | zero =>
    intro e acc hWF
    exact ⟨acc, rfl, hWF, by simp, by simp, by simp, [], by simp, by simp, by simp, by simp⟩
  | succ n ih =>
    intro e acc hWF
    obtain ⟨acc1, hstep, hwf1, hcount1, hlast1, hlen1, post1, hev1, hfil1, hnf1, hnc1⟩ :=
      epochStep_spec p acc e hfreq hK hWF
    obtain ⟨acc2, hrec, hwf2, hcount2, hlast2, hlen2, post2, hev2, hfil2, hnf2, hnc2⟩ :=
      ih (e + 1) acc1 hwf1
    refine ⟨acc2, ?_, hwf2, ?_, ?_, ?_, post1 ++ post2, ?_, ?_, ?_, ?_⟩
    · simp only [fitEpochs]
      rw [hstep]
      exact hrec
    · rw [hcount2, hcount1]
      omega
    · rw [hlast2]
      by_cases hn : n = 0
      · subst hn
        rw [if_pos rfl, if_neg (by omega), hlast1]
        exact congrArg some (by omega)
      · rw [if_neg hn, if_neg (by omega)]
        exact congrArg some (by omega)
    · rw [hlen2, hlen1, List.range'_succ, List.filter_cons]
      by_cases hte : (e + p.prev_epochs) % p.test_freq = 0
      · rw [decide_eq_true hte, if_pos rfl, List.length_cons, if_pos hte]
        omega
      · rw [decide_eq_false hte, if_neg Bool.false_ne_true, if_neg hte]
        omega
    · rw [hev2, hev1, List.append_assoc]
    · rw [List.filter_append, hfil1, hfil2, List.range'_succ, List.filter_cons]
      by_cases hte : (e + p.prev_epochs) % p.test_freq = 0
      · simp [hte]
      · simp [hte]
    · intro hmem
      rcases List.mem_append.mp hmem with h | h
      · exact hnf1 h
      · exact hnf2 h
    · intro hmem
      rcases List.mem_append.mp hmem with h | h
      · exact hnc1 h
      · exact hnc2 h

/-- C3 (amended): during `fit` the test split is run in-loop exactly for
those epochs whose absolute index (`epoch + prev_epochs`) is divisible by
`test_freq`; after the epoch loop exits, `fit` flushes and closes the
metrics sink and then always runs exactly one additional final test pass
regardless of frequency; the test-loss history holds one entry per in-loop
run plus the final one. -/
theorem claim_C3_amended_test_schedule (p : FitParams)
    (h1 : 1 ≤ p.nepochs) (h2 : p.test_freq ≠ 0) (h3 : 1 ≤ p.top_checkpoints_n) :
    ∃ r, fit p = Except.ok r ∧
      r.test_losses.length =
        ((List.range p.nepochs).filter fun e =>
          (e + p.prev_epochs) % p.test_freq = 0).length + 1 ∧
      ∃ pre, r.events = pre ++ [FitEvent.flushWriter, FitEvent.closeWriter,
          FitEvent.testRun (p.nepochs - 1 + p.prev_epochs)] ∧
        FitEvent.flushWriter ∉ pre ∧ FitEvent.closeWriter ∉ pre ∧
        pre.filter isTestRunEv =
          ((List.range p.nepochs).filter fun e =>
            (e + p.prev_epochs) % p.test_freq = 0).map
            (fun e => FitEvent.testRun (e + p.prev_epochs)) := by
  have hinit : CkptWF ⟨List.replicate p.top_checkpoints_n (⊤ : WithTop ℚ),
      List.replicate p.top_checkpoints_n (none : Option String)⟩ p.top_checkpoints_n := by
    refine ⟨by simp, by simp, ?_⟩
    intro j hj
    rw [List.getD_eq_getElem _ _ (by simpa using hj),
      List.getD_eq_getElem _ _ (by simpa using hj)]
    simp
  obtain ⟨acc0, hrun, hwf0, hcount0, hlast0, hlen0, post, hev0, hfil0, hnf0, hnc0⟩ :=
    fitEpochs_spec p h2 h3 p.nepochs 0
      { train_losses := [], val_losses := [], test_losses := [],
        best_losses := List.replicate p.top_checkpoints_n (⊤ : WithTop ℚ),
        model_names := List.replicate p.top_checkpoints_n (none : Option String),
        events := [], lastTrueEpoch := none } hinit
  have hlast0' : acc0.lastTrueEpoch = some (p.nepochs - 1 + p.prev_epochs) := by
    rw [hlast0, if_neg (by omega)]
    exact congrArg some (by omega)
  have hfit : fit p = Except.ok (mkFitResult { acc0 with
      test_losses := acc0.test_losses ++ [p.testL (p.nepochs - 1 + p.prev_epochs)],
      events := acc0.events ++ [FitEvent.flushWriter, FitEvent.closeWriter] ++
        [FitEvent.testRun (p.nepochs - 1 + p.prev_epochs)] }) := by
    by_cases hKn : p.top_checkpoints_n ≤ p.nepochs
    · have hcnt0 : acc0.best_losses.count ⊤ = 0 := by
        rw [hcount0]
        simp [List.count_replicate]
        omega
      have hnm : (⊤ : WithTop ℚ) ∉ acc0.best_losses := List.count_eq_zero.mp hcnt0
      have hl1 : acc0.best_losses.length = p.top_checkpoints_n := hwf0.1
      have hl2 : acc0.model_names.length = p.top_checkpoints_n := hwf0.2.1
      have hcorr : ∀ j, j < p.top_checkpoints_n →
          (acc0.best_losses.getD j ⊤ = ⊤ ↔ acc0.model_names.getD j none = none) :=
        hwf0.2.2
      have hcontains : acc0.model_names.contains none = false := by
        by_contra hc
        have hc' : acc0.model_names.contains none = true := by
          revert hc
          cases acc0.model_names.contains none <;> simp
        obtain ⟨a, ha, hab⟩ := List.contains_iff_exists_mem_beq.mp hc'
        obtain rfl : a = (none : Option String) := (eq_of_beq hab).symm
        obtain ⟨k, hk, hgetk⟩ := List.mem_iff_getElem.mp ha
        have hkK : k < p.top_checkpoints_n := by rw [← hl2]; exact hk
        have htop : acc0.best_losses.getD k ⊤ = ⊤ :=
          (hcorr k hkK).mpr (by rw [List.getD_eq_getElem _ _ hk, hgetk])
        have hkK' : k < acc0.best_losses.length := by rw [hl1]; exact hkK
        have hmem : (⊤ : WithTop ℚ) ∈ acc0.best_losses := by
          rw [← htop, List.getD_eq_getElem _ _ hkK']
          exact List.getElem_mem _
        exact hnm hmem
      have hall : acc0.best_losses.all (fun x => decide (x < ⊤)) = true := by
        rw [List.all_eq_true]
        intro x hx
        exact decide_eq_true (WithTop.lt_top_iff_ne_top.mpr fun h => hnm (h ▸ hx))
      simp only [fit, hrun, hlast0']
      rw [if_pos hKn, hcontains, if_neg Bool.false_ne_true, hall, if_pos rfl]
    · simp only [fit, hrun, hlast0']
      rw [if_neg hKn]
  refine ⟨_, hfit, ?_, post, ?_, hnf0, hnc0, ?_⟩
  · simp only [mkFitResult]
    rw [List.length_append, hlen0]
    simp [List.range_eq_range']
  · simp only [mkFitResult]
    rw [hev0]
    simp [List.append_assoc]
  · rw [List.range_eq_range']
    exact hfil0

/-- C3 witness: at `nepochs = 3`, `test_freq = 10`, resume offset 0, `fit`
succeeds and the test split runs exactly twice (test-loss history of
length 2). -/
theorem claim_C3_witness :
    ∃ r, fit c3Params = Except.ok r ∧ r.test_losses.length = 2 := by
  obtain ⟨r, hok, hlen, -⟩ := claim_C3_amended_test_schedule c3Params
    (by decide) (by decide) (by decide)
  refine ⟨r, hok, ?_⟩
  rw [hlen]
  decide
